import Mathlib

/-!
Verification of the message-orchestration and escalation engine of a
conversational-commerce backend (WhatsApp fashion-commerce assistant).

The Python sources under `app/` are shallowly embedded: pure string and
policy logic is translated function by function; asynchronous collaborator
calls (completion model, vector search, Redis session store, notification
webhook) become explicit parameters or `Except` results; numeric scores are
modelled as exact rationals (`ℚ`).
-/

/-- Characterwise lowercasing, modelling Python `str.lower()` on the
ASCII strings used by the services. -/
def strLower (s : String) : String :=
  String.mk (s.toList.map Char.toLower)

/-- Whether `pat` occurs as a contiguous sublist of the second argument,
modelling the Python substring test used by all phrase detectors. -/
def occursIn {α : Type} [DecidableEq α] (pat : List α) : List α → Bool
  | [] => pat.isEmpty
  | c :: rest => pat.isPrefixOf (c :: rest) || occursIn pat rest

/-- Python `pat in hay` on strings (substring containment). -/
def strOccursIn (pat hay : String) : Bool :=
  occursIn pat.toList hay.toList

/-- Two-decimal rendering of a nonnegative rational, modelling the Python
f-string `f"{x:.2f}"` used in the low-confidence escalation reason (the
scores that reach it are exact hundredths, where the two agree). -/
def format2f (q : ℚ) : String :=
  let n : ℤ := ⌊q * 100 + 1 / 2⌋
  let frac : ℤ := n % 100
  toString (n / 100) ++ "." ++ (if frac < 10 then "0" ++ toString frac else toString frac)

namespace EscalationService

/-- `EscalationService.CONFIDENCE_THRESHOLD` (70% threshold for
auto-escalation). -/
def CONFIDENCE_THRESHOLD : ℚ := 0.7

/-- The fixed human-handoff phrase vocabulary of
`EscalationService.detect_escalation_request`. -/
def escalation_phrases : List String :=
  ["talk to human", "speak to human", "human agent", "real person",
   "customer service", "support agent", "talk to someone", "speak to someone",
   "representative", "help me please", "need help", "agent please"]

/-- `EscalationService.detect_escalation_request`: case-insensitive substring
match against the fixed vocabulary. -/
def detect_escalation_request (message : String) : Bool :=
  escalation_phrases.any (fun phrase => strOccursIn phrase (strLower message))

/-- The reason string `f"Low confidence score: {confidence_score:.2f}"`. -/
def low_confidence_reason (confidence_score : ℚ) : String :=
  "Low confidence score: " ++ format2f confidence_score

/-- The reason string for an explicit customer request. -/
def explicit_request_reason : String := "Customer requested human assistance"

/-- `EscalationService.should_escalate`: explicit request wins, then the
strict low-confidence threshold, else no escalation. -/
def should_escalate (confidence_score : Option ℚ) (explicit_request : Bool) :
    Bool × String :=
  if explicit_request then (true, explicit_request_reason)
  else
    match confidence_score with
    | some c =>
        if c < CONFIDENCE_THRESHOLD then (true, low_confidence_reason c)
        else (false, "")
    | none => (false, "")

/-- `EscalationService.get_escalation_message`: the fixed acknowledgment text
sent to the customer when escalating. -/
def get_escalation_message : String :=
  "🙋 I'm connecting you with a human agent who can better assist you.\n\n" ++
  "A team member will respond shortly during business hours " ++
  "(Mon-Fri 9AM-6PM EST).\n\n" ++
  "In the meantime, you can continue to send messages and I'll " ++
  "make sure they see your full conversation."

end EscalationService

namespace AIService

/-- `AIService.NON_CLOTHING_KEYWORDS`. -/
def NON_CLOTHING_KEYWORDS : List String :=
  ["weather", "news", "politics", "sports score", "recipe",
   "math", "calculate", "code", "programming", "translate"]

/-- The clothing-related keyword list of `AIService.is_clothing_related`. -/
def clothing_keywords : List String :=
  ["dress", "shirt", "pants", "skirt", "jacket", "coat",
   "shoe", "size", "color", "fabric", "cotton", "silk",
   "order", "shipping", "delivery", "return", "exchange",
   "price", "cost", "available", "stock", "inventory",
   "style", "fashion", "wear", "outfit", "clothing",
   "blouse", "sweater", "jeans", "shorts", "top"]

/-- `AIService.is_clothing_related`: a non-clothing keyword rejects first;
then a clothing keyword accepts; ambiguous messages default to `true`. -/
def is_clothing_related (message : String) : Bool :=
  let message_lower := strLower message
  if NON_CLOTHING_KEYWORDS.any (fun k => strOccursIn k message_lower) then false
  else if clothing_keywords.any (fun k => strOccursIn k message_lower) then true
  else true

/-- `AIService.get_redirect_message` for English. -/
def redirect_en : String :=
  "I'm here to help with fashion and clothing questions! " ++
  "Feel free to ask about our products, sizes, shipping, or returns. " ++
  "You can also send a photo of clothing you'd like to find."

/-- `AIService.get_redirect_message` for Spanish. -/
def redirect_es : String :=
  "¡Estoy aquí para ayudar con preguntas sobre moda y ropa! " ++
  "Puede preguntar sobre productos, tallas, envíos o devoluciones. " ++
  "También puede enviar una foto de la ropa que busca."

/-- `AIService.get_redirect_message` for French. -/
def redirect_fr : String :=
  "Je suis là pour répondre à vos questions sur la mode ! " ++
  "N'hésitez pas à me poser des questions sur nos produits, tailles, livraison ou retours. " ++
  "Vous pouvez aussi m'envoyer une photo du vêtement que vous recherchez."

/-- `AIService.get_redirect_message`: dictionary lookup with English as the
default for unknown language codes. -/
def get_redirect_message (language : String) : String :=
  if language = "en" then redirect_en
  else if language = "es" then redirect_es
  else if language = "fr" then redirect_fr
  else redirect_en

/-- The fixed hedging ("uncertain") phrase list of
`AIService.generate_response_with_confidence`. -/
def uncertain_phrases : List String :=
  ["i'm not sure", "i don't know", "i cannot", "unfortunately", "i apologize"]

/-- Whether the generated text contains a hedging phrase (case-insensitive
substring match). -/
def has_uncertain_phrase (response : String) : Bool :=
  uncertain_phrases.any (fun phrase => strOccursIn phrase (strLower response))

/-- The confidence heuristic of `AIService.generate_response_with_confidence`:
base 0.85 with non-empty context else 0.65, minus 0.2 on a hedging phrase,
clamped to [0, 1]. -/
def response_confidence (context response : String) : ℚ :=
  let confidence : ℚ := if context ≠ "" then 0.85 else 0.65
  let confidence : ℚ :=
    if has_uncertain_phrase response then confidence - 0.2 else confidence
  max 0 (min 1 confidence)

end AIService

/-- C1: `should_escalate` escalates with the explicit-request reason whenever
`explicit_request` is true regardless of the score; otherwise it escalates
with the low-confidence reason exactly when a score is present and strictly
below 0.70; otherwise it returns `(false, "")`. In particular a score of
exactly 0.70 does not escalate while 0.69 does. -/
theorem C1_should_escalate_policy (c : Option ℚ) (q : ℚ) :
    EscalationService.should_escalate c true =
      (true, EscalationService.explicit_request_reason) ∧
    (q < 0.7 →
      EscalationService.should_escalate (some q) false =
        (true, EscalationService.low_confidence_reason q)) ∧
    (0.7 ≤ q →
      EscalationService.should_escalate (some q) false = (false, "")) ∧
    EscalationService.should_escalate none false = (false, "") ∧
    EscalationService.should_escalate (some 0.7) false = (false, "") ∧
    EscalationService.should_escalate (some 0.69) false =
      (true, EscalationService.low_confidence_reason 0.69) := by
  refine ⟨rfl, fun h => ?_, fun h => ?_, rfl, ?_, ?_⟩
  · have hc : q < EscalationService.CONFIDENCE_THRESHOLD := by
      simpa [EscalationService.CONFIDENCE_THRESHOLD] using h
    simp [EscalationService.should_escalate, hc]
  · have hc : ¬ q < EscalationService.CONFIDENCE_THRESHOLD := by
      simp only [EscalationService.CONFIDENCE_THRESHOLD]
      exact not_lt.mpr h
    simp [EscalationService.should_escalate, hc]
  · have hc : ¬ (0.7 : ℚ) < EscalationService.CONFIDENCE_THRESHOLD := by
      simp [EscalationService.CONFIDENCE_THRESHOLD]
    simp [EscalationService.should_escalate, hc]
  · have hc : (0.69 : ℚ) < EscalationService.CONFIDENCE_THRESHOLD := by
      norm_num [EscalationService.CONFIDENCE_THRESHOLD]
    simp [EscalationService.should_escalate, hc]

/-- C1 witness: the policy evaluated at the concrete scores 0.5 (escalates
with the low-confidence reason, here "Low confidence score: 0.50") and 0.95
(does not escalate). -/
theorem C1_should_escalate_policy_witness :
    EscalationService.should_escalate (some 0.5) false =
      (true, EscalationService.low_confidence_reason 0.5) ∧
    EscalationService.should_escalate (some 0.95) false = (false, "") ∧
    EscalationService.low_confidence_reason 0.5 = "Low confidence score: 0.50" := by
  refine ⟨(C1_should_escalate_policy (some 0.5) 0.5).2.1 (by norm_num),
          (C1_should_escalate_policy (some 0.95) 0.95).2.2.1 (by norm_num), ?_⟩
  have hf : ⌊(0.5 : ℚ) * 100 + 1 / 2⌋ = (50 : ℤ) := by norm_num
  simp only [EscalationService.low_confidence_reason, format2f, hf]
  decide

/-- C2: the confidence heuristic is the clamp to [0,1] of the base score
(0.85 with non-empty context, 0.65 otherwise) minus 0.20 when the lowercased
response contains one of the fixed hedging phrases; concretely it yields
0.85 for context without hedge, 0.65 for context with hedge or no context
without hedge, and 0.45 for no context with hedge, always within [0, 1]. -/
theorem C2_response_confidence (context response : String) :
    AIService.response_confidence context response =
      max 0 (min 1 ((if context ≠ "" then (0.85 : ℚ) else 0.65) -
        (if AIService.has_uncertain_phrase response then 0.2 else 0))) ∧
    (context ≠ "" → AIService.has_uncertain_phrase response = false →
      AIService.response_confidence context response = 0.85) ∧
    (context ≠ "" → AIService.has_uncertain_phrase response = true →
      AIService.response_confidence context response = 0.65) ∧
    (context = "" → AIService.has_uncertain_phrase response = false →
      AIService.response_confidence context response = 0.65) ∧
    (context = "" → AIService.has_uncertain_phrase response = true →
      AIService.response_confidence context response = 0.45) ∧
    0 ≤ AIService.response_confidence context response ∧
    AIService.response_confidence context response ≤ 1 := by
  unfold AIService.response_confidence
  by_cases hctx : context = "" <;>
    cases hhedge : AIService.has_uncertain_phrase response <;>
      simp [hctx, hhedge] <;> norm_num

/-- C2 witness: the heuristic at concrete inputs — context "Sizes run
small." with a confident reply gives 0.85, the same context with a hedging
reply gives 0.65, and no context with a hedging reply gives 0.45. -/
theorem C2_response_confidence_witness :
    AIService.response_confidence "Sizes run small." "We stock XS to XXL." = 0.85 ∧
    AIService.response_confidence "Sizes run small." "I'm not sure about that." = 0.65 ∧
    AIService.response_confidence "" "Unfortunately I cannot say." = 0.45 := by
  refine ⟨(C2_response_confidence "Sizes run small." "We stock XS to XXL.").2.1
            (by decide) (by decide),
          (C2_response_confidence "Sizes run small." "I'm not sure about that.").2.2.1
            (by decide) (by decide),
          (C2_response_confidence "" "Unfortunately I cannot say.").2.2.2.2.1
            rfl (by decide)⟩

/-- Exceptions raised by the embedded services. `externalCallFailed` is the
wrapper error the specification posits for the resilience wrapper; the
repository defines no such class and `async_retry` re-raises the last
underlying exception itself (`raise last_exception`), which the C4
counterexample exhibits. -/
inductive Exn : Type
  | timeoutErr : Exn
  | opErr (msg : String) : Exn
  | externalCallFailed (cause : Exn) : Exn
deriving DecidableEq, Repr

/-- The retry loop of `async_retry` in `app/utils/retry.py`: `fuel` is the
number of tries left (`attempts + 1` initially), `i` the current attempt
index (the argument of the attempt oracle `runs`), `last` the last caught
exception. A timeout or an exception in the configured set (`catchable`) is
caught and retried; any other exception propagates at once; when the fuel
runs out the last caught exception is re-raised. -/
def retryGo {α : Type} (catchable : Exn → Bool) (runs : Nat → Except Exn α) :
    Nat → Nat → Option Exn → Except Exn α
  | 0, _, last => Except.error (last.getD (Exn.opErr "failed"))
  | fuel + 1, i, _ =>
    match runs i with
    | Except.ok a => Except.ok a
    | Except.error e =>
        if e = Exn.timeoutErr ∨ catchable e = true then
          retryGo catchable runs fuel (i + 1) (some e)
        else Except.error e

/-- `async_retry(attempts, timeout, exceptions)` applied to an operation
whose attempt outcomes are given by `runs`: the initial try plus `attempts`
retries. -/
def async_retry {α : Type} (attempts : Nat) (catchable : Exn → Bool)
    (runs : Nat → Except Exn α) : Except Exn α :=
  retryGo catchable runs (attempts + 1) 0 none

/-- Unfolding equation for one try of the retry loop. -/
theorem retryGo_succ {α : Type} (catchable : Exn → Bool)
    (runs : Nat → Except Exn α) (fuel i : Nat) (last : Option Exn) :
    retryGo catchable runs (fuel + 1) i last =
      match runs i with
      | Except.ok a => Except.ok a
      | Except.error e =>
          if e = Exn.timeoutErr ∨ catchable e = true then
            retryGo catchable runs fuel (i + 1) (some e)
          else Except.error e := rfl

/-- When every attempt fails with a caught exception, the retry loop ends
with the exception of its final attempt. -/
theorem retryGo_all_fail {α : Type} (catchable : Exn → Bool)
    (runs : Nat → Except Exn α) (es : Nat → Exn)
    (h : ∀ j, runs j = Except.error (es j) ∧
      (es j = Exn.timeoutErr ∨ catchable (es j) = true)) :
    ∀ fuel i last, retryGo catchable runs (fuel + 1) i last =
      Except.error (es (i + fuel)) := by
  intro fuel
  induction fuel with
  | zero =>
    intro i last
    rw [retryGo_succ, (h i).1]
    simp only [if_pos (h i).2, retryGo, Option.getD_some, Nat.add_zero]
  | succ f ih =>
    intro i last
    rw [retryGo_succ, (h i).1]
    simp only [if_pos (h i).2]
    rw [ih (i + 1) (some (es i))]
    have harith : i + 1 + f = i + (f + 1) := by omega
    rw [harith]

/-- C4 (amended): when every attempt of the resilience wrapper fails, by
timeout or by an exception in the configured set, then after exhausting the
initial attempt plus `attempts` retries the wrapper re-raises the last
failure itself — the underlying exception of the final attempt, not an
`ExternalCallFailed` wrapper (no such wrapper class exists in the code). -/
theorem C4_async_retry_exhaustion {α : Type} (attempts : Nat)
    (catchable : Exn → Bool) (runs : Nat → Except Exn α) (es : Nat → Exn)
    (h : ∀ j, runs j = Except.error (es j) ∧
      (es j = Exn.timeoutErr ∨ catchable (es j) = true)) :
    async_retry attempts catchable runs = Except.error (es attempts) := by
  unfold async_retry
  have hall := retryGo_all_fail catchable runs es h attempts 0 none
  simpa using hall

/-- C4 witness: with one retry configured and both attempts timing out, the
wrapper fails with the timeout exception itself. -/
theorem C4_async_retry_exhaustion_witness :
    async_retry 1 (fun _ => true)
        (fun _ => (Except.error Exn.timeoutErr : Except Exn Nat)) =
      Except.error Exn.timeoutErr :=
  C4_async_retry_exhaustion 1 (fun _ => true) _ (fun _ => Exn.timeoutErr)
    (fun _ => ⟨rfl, Or.inl rfl⟩)

/-- C4 counterexample: with one retry configured and every attempt failing
with the same exception from the configured set, `async_retry` surfaces that
exception unwrapped; it does not produce an `ExternalCallFailed`-style
wrapper around the underlying cause, contrary to the claim as stated. -/
theorem C4_async_retry_counterexample :
    async_retry 1 (fun _ => true)
        (fun _ => (Except.error (Exn.opErr "boom") : Except Exn Nat)) =
      Except.error (Exn.opErr "boom") ∧
    async_retry 1 (fun _ => true)
        (fun _ => (Except.error (Exn.opErr "boom") : Except Exn Nat)) ≠
      Except.error (Exn.externalCallFailed (Exn.opErr "boom")) := by
  refine ⟨rfl, ?_⟩
  intro hcontra
  rw [show async_retry 1 (fun _ => true)
      (fun _ => (Except.error (Exn.opErr "boom") : Except Exn Nat)) =
      Except.error (Exn.opErr "boom") from rfl] at hcontra
  injection hcontra with h2
  exact Exn.noConfusion h2

namespace OrderService

/-- The order-id regex `ORD-\d{4}-\d{6}` (with `re.IGNORECASE`), as the fixed
sequence of 15 character tests: the literal prefix `ORD`, a hyphen, a 4-digit
segment, a hyphen, a 6-digit segment (digits read as ASCII digits). -/
def ORDER_ID_PATTERN : List (Char → Bool) :=
  [fun c => c.toLower == 'o', fun c => c.toLower == 'r', fun c => c.toLower == 'd',
   fun c => c == '-',
   Char.isDigit, Char.isDigit, Char.isDigit, Char.isDigit,
   fun c => c == '-',
   Char.isDigit, Char.isDigit, Char.isDigit, Char.isDigit, Char.isDigit,
   Char.isDigit]

/-- Match the character tests `ps` against the head of the list, returning
the consumed characters. -/
def matchAt : List (Char → Bool) → List Char → Option (List Char)
  | [], _ => some []
  | _ :: _, [] => none
  | p :: ps, c :: cs =>
      if p c then (matchAt ps cs).map (fun m => c :: m) else none

/-- Leftmost-match scan of `re.search`: try the pattern at each successive
start position. -/
def searchAt (ps : List (Char → Bool)) : List Char → Option (List Char)
  | [] => none
  | c :: cs =>
      match matchAt ps (c :: cs) with
      | some m => some m
      | none => searchAt ps cs

/-- `OrderService.extract_order_id`: search the message for the order-id
pattern and return the matched text uppercased (`match.group().upper()`),
or `none`. -/
def extract_order_id (message : String) : Option String :=
  (searchAt ORDER_ID_PATTERN message.toList).map
    (fun m => String.mk (m.map Char.toUpper))

end OrderService

namespace ProductService

/-- `ProductService.detect_browse_trigger`: the new-arrivals, trending and
sale trigger vocabularies, evaluated in that order, first category wins. -/
def detect_browse_trigger (message : String) : Option String :=
  let message_lower := strLower message
  if ["new arrivals", "newest", "just in", "latest"].any
      (fun phrase => strOccursIn phrase message_lower) then some "new_arrivals"
  else if ["trending", "popular", "best seller", "top rated"].any
      (fun phrase => strOccursIn phrase message_lower) then some "trending"
  else if ["sale", "discount", "clearance", "deal"].any
      (fun phrase => strOccursIn phrase message_lower) then some "sale"
  else none

end ProductService

/-- The intent variants computed per inbound message. -/
inductive Intent : Type
  | OrderLookup (orderId : String) : Intent
  | CatalogBrowse (trigger : String) : Intent
  | EscalationRequest : Intent
  | GeneralQA : Intent
deriving DecidableEq, Repr

/-- The intent router: the dispatch order of `handle_text_message` in
`app/api/webhook.py` (order id first, then browse trigger) composed with the
explicit-escalation check at the head of `AIService.process_text_message`. -/
def classify (message : String) : Intent :=
  match OrderService.extract_order_id message with
  | some orderId => Intent.OrderLookup orderId
  | none =>
      match ProductService.detect_browse_trigger message with
      | some trigger => Intent.CatalogBrowse trigger
      | none =>
          if EscalationService.detect_escalation_request message then
            Intent.EscalationRequest
          else Intent.GeneralQA

/-- A successful pattern match is preserved by appending a tail to the
scanned text. -/
theorem matchAt_append {ps : List (Char → Bool)} :
    ∀ {xs m rest : List Char}, OrderService.matchAt ps xs = some m →
      OrderService.matchAt ps (xs ++ rest) = some m := by
  induction ps with
  | nil =>
    intro xs m rest h
    simp only [OrderService.matchAt, Option.some.injEq] at h
    simp [OrderService.matchAt, h]
  | cons p ps ih =>
    intro xs m rest h
    cases xs with
    | nil => exact Option.noConfusion h
    | cons c cs =>
      rw [List.cons_append]
      simp only [OrderService.matchAt] at h ⊢
      cases hpc : p c with
      | false => simp [hpc] at h
      | true =>
        rw [hpc, if_pos rfl] at h
        rw [if_pos rfl]
        obtain ⟨m', hm', rfl⟩ := Option.map_eq_some'.mp h
        rw [ih hm']
        rfl

/-- The text consumed by a successful pattern match itself matches the
pattern in full. -/
theorem matchAt_self {ps : List (Char → Bool)} :
    ∀ {xs m : List Char}, OrderService.matchAt ps xs = some m →
      OrderService.matchAt ps m = some m := by
  induction ps with
  | nil =>
    intro xs m h
    simp only [OrderService.matchAt, Option.some.injEq] at h
    simp [OrderService.matchAt, h]
  | cons p ps ih =>
    intro xs m h
    cases xs with
    | nil => exact Option.noConfusion h
    | cons c cs =>
      simp only [OrderService.matchAt] at h
      cases hpc : p c with
      | false => simp [hpc] at h
      | true =>
        rw [hpc, if_pos rfl] at h
        obtain ⟨m', hm', rfl⟩ := Option.map_eq_some'.mp h
        show OrderService.matchAt (p :: ps) (c :: m') = some (c :: m')
        simp only [OrderService.matchAt]
        rw [hpc, if_pos rfl, ih hm']
        rfl

/-- Whatever `searchAt` returns was produced by a pattern match at some
position. -/
theorem searchAt_spec {ps : List (Char → Bool)} :
    ∀ {xs m : List Char}, OrderService.searchAt ps xs = some m →
      ∃ ys, OrderService.matchAt ps ys = some m := by
  intro xs
  induction xs with
  | nil => intro m h; exact Option.noConfusion h
  | cons c cs ih =>
    intro m h
    simp only [OrderService.searchAt] at h
    cases hm : OrderService.matchAt ps (c :: cs) with
    | some m' => rw [hm] at h; exact ⟨c :: cs, hm.trans h⟩
    | none => rw [hm] at h; exact ih h

/-- If the pattern matches at the start of some suffix, the leftmost scan
finds a match. -/
theorem searchAt_isSome {ps : List (Char → Bool)} (hne : ps ≠ []) :
    ∀ (pre xs m : List Char), OrderService.matchAt ps xs = some m →
      (OrderService.searchAt ps (pre ++ xs)).isSome = true := by
  intro pre
  induction pre with
  | nil =>
    intro xs m h
    cases xs with
    | nil =>
      cases ps with
      | nil => exact absurd rfl hne
      | cons p ps => exact Option.noConfusion h
    | cons c cs =>
      simp only [List.nil_append, OrderService.searchAt, h]
      rfl
  | cons q pre ih =>
    intro xs m h
    rw [List.cons_append]
    simp only [OrderService.searchAt]
    cases hm : OrderService.matchAt ps (q :: (pre ++ xs)) with
    | some m' => rfl
    | none => exact ih xs m h

/-- C3: intent routing tries the order-id pattern before the escalation
vocabulary: any message containing both a substring matching the
case-insensitive `ORD-<4 digits>-<6 digits>` pattern and an escalation
phrase is classified as `OrderLookup` carrying an uppercased pattern match,
and never as `EscalationRequest`. -/
theorem C3_order_id_beats_escalation (message : String)
    (pre m post : List Char)
    (hdecomp : message.toList = pre ++ m ++ post)
    (hmatch : OrderService.matchAt OrderService.ORDER_ID_PATTERN m = some m)
    (_hesc : EscalationService.detect_escalation_request message = true) :
    ∃ found : List Char,
      OrderService.matchAt OrderService.ORDER_ID_PATTERN found = some found ∧
      OrderService.extract_order_id message =
        some (String.mk (found.map Char.toUpper)) ∧
      classify message =
        Intent.OrderLookup (String.mk (found.map Char.toUpper)) ∧
      classify message ≠ Intent.EscalationRequest := by
  have hne : OrderService.ORDER_ID_PATTERN ≠ [] := by
    simp [OrderService.ORDER_ID_PATTERN]
  have happ : OrderService.matchAt OrderService.ORDER_ID_PATTERN (m ++ post) =
      some m := matchAt_append hmatch
  have hsome := searchAt_isSome hne pre (m ++ post) m happ
  rw [← List.append_assoc, ← hdecomp] at hsome
  obtain ⟨found, hfound⟩ := Option.isSome_iff_exists.mp hsome
  have hfull : OrderService.matchAt OrderService.ORDER_ID_PATTERN found =
      some found := by
    obtain ⟨ys, hys⟩ := searchAt_spec hfound
    exact matchAt_self hys
  have hfound2 : OrderService.searchAt OrderService.ORDER_ID_PATTERN
      message.data = some found := hfound
  refine ⟨found, hfull, ?_, ?_, ?_⟩
  · simp [OrderService.extract_order_id, hfound2]
  · simp [classify, OrderService.extract_order_id, hfound2]
  · simp [classify, OrderService.extract_order_id, hfound2]

/-- C3 witness: "I need help with order ORD-2024-001234" contains the
escalation phrase "need help" and an order id, and is routed as
`OrderLookup "ORD-2024-001234"`, not as an escalation request. -/
theorem C3_order_id_beats_escalation_witness :
    EscalationService.detect_escalation_request
      "I need help with order ORD-2024-001234" = true ∧
    classify "I need help with order ORD-2024-001234" ≠
      Intent.EscalationRequest ∧
    classify "I need help with order ORD-2024-001234" =
      Intent.OrderLookup "ORD-2024-001234" := by
  obtain ⟨found, _hfull, _hex, _hcl, hne⟩ :=
    C3_order_id_beats_escalation "I need help with order ORD-2024-001234"
      ("I need help with order ".toList) ("ORD-2024-001234".toList) []
      (by decide) (by decide) (by decide)
  exact ⟨by decide, hne, by decide⟩

namespace SessionService

/-- A stored conversation turn: role and content. `add_message` serializes
the pair with `json.dumps` and `get_context` parses it back with
`json.loads`; the round-trip preserves both fields, so turns are modelled
as the pairs themselves. -/
abbrev Msg := String × String

/-- The last `n` elements of a list, oldest first: Redis
`LRANGE key -n -1`, and the list kept by `LTRIM key -n -1`. -/
def lastN {α : Type} (n : Nat) (l : List α) : List α :=
  l.drop (l.length - n)

/-- `SessionService.MAX_MESSAGES`. -/
def MAX_MESSAGES : Nat := 10

/-- The Redis keyspace: each key holds a (possibly empty) list of turns; a
deleted or absent key is the empty list, as `get_context` reads it. -/
abbrev Store := String → List Msg

/-- The keyspace with no session data. -/
def emptyStore : Store := fun _ => []

/-- The `f"{SESSION_PREFIX}{customer_phone}"` key of a conversation. -/
def sessionKey (customer_phone : String) : String :=
  "session:" ++ customer_phone

/-- `SessionService.add_message`: RPUSH the serialized turn onto the key,
then LTRIM to the last `MAX_MESSAGES` entries (the TTL refresh is a
liveness effect, not modelled). -/
def add_message (store : Store) (customer_phone role content : String) :
    Store :=
  fun k =>
    if k = sessionKey customer_phone then
      lastN MAX_MESSAGES (store (sessionKey customer_phone) ++ [(role, content)])
    else store k

/-- `SessionService.get_context`: LRANGE of the last `MAX_MESSAGES`
entries, oldest first. -/
def get_context (store : Store) (customer_phone : String) : List Msg :=
  lastN MAX_MESSAGES (store (sessionKey customer_phone))

/-- `SessionService.clear_context`: unconditionally delete the key. -/
def clear_context (store : Store) (customer_phone : String) : Store :=
  fun k => if k = sessionKey customer_phone then [] else store k

end SessionService

/-- The last-`n` window never exceeds `n` elements. -/
theorem lastN_length_le {α : Type} (n : Nat) (l : List α) :
    (SessionService.lastN n l).length ≤ n := by
  simp only [SessionService.lastN, List.length_drop]
  omega

/-- A list already within the bound is its own last-`n` window. -/
theorem lastN_of_length_le {α : Type} {n : Nat} {l : List α}
    (h : l.length ≤ n) : SessionService.lastN n l = l := by
  simp [SessionService.lastN, Nat.sub_eq_zero_of_le h]

/-- Taking the last-`n` window twice equals taking it once. -/
theorem lastN_idem {α : Type} (n : Nat) (l : List α) :
    SessionService.lastN n (SessionService.lastN n l) =
      SessionService.lastN n l :=
  lastN_of_length_le (lastN_length_le n l)

/-- Trimming before appending does not change the final last-`n` window. -/
theorem lastN_append_lastN {α : Type} (n : Nat) (xs ys : List α) :
    SessionService.lastN n (SessionService.lastN n xs ++ ys) =
      SessionService.lastN n (xs ++ ys) := by
  unfold SessionService.lastN
  rw [List.drop_append_eq_append_drop, List.drop_append_eq_append_drop,
    List.drop_drop]
  congr 1
  · congr 1
    simp only [List.length_append, List.length_drop]
    omega
  · congr 1
    simp only [List.length_append, List.length_drop]
    omega

/-- Folding `add_message` over a message sequence acts on the session's own
key as the bounded window append, and leaves other keys alone. -/
theorem foldl_add_message_at_key (customer_phone : String) :
    ∀ (ms : List SessionService.Msg) (s : SessionService.Store),
      (ms.foldl
        (fun st m => SessionService.add_message st customer_phone m.1 m.2) s)
          (SessionService.sessionKey customer_phone) =
        ms.foldl
          (fun w m => SessionService.lastN SessionService.MAX_MESSAGES (w ++ [m]))
          (s (SessionService.sessionKey customer_phone)) := by
  intro ms
  induction ms with
  | nil => intro s; rfl
  | cons m rest ih =>
    intro s
    simp only [List.foldl_cons]
    rw [ih]
    congr 1
    simp [SessionService.add_message]

/-- Folding the bounded window append starting from a trimmed window yields
the last-`n` window of everything appended. -/
theorem foldl_window_append :
    ∀ (ms : List SessionService.Msg) (w : List SessionService.Msg),
      SessionService.lastN SessionService.MAX_MESSAGES w = w →
      ms.foldl
          (fun w m => SessionService.lastN SessionService.MAX_MESSAGES (w ++ [m]))
          w =
        SessionService.lastN SessionService.MAX_MESSAGES (w ++ ms) := by
  intro ms
  induction ms with
  | nil => intro w hw; simpa using hw.symm
  | cons m rest ih =>
    intro w hw
    simp only [List.foldl_cons]
    rw [ih _ (lastN_idem _ _), lastN_append_lastN]
    simp

/-- C6: for every conversation key and every sequence of `add_message`
calls starting from an empty store, `get_context` returns exactly the last
`MAX_MESSAGES` (10) appended turns — in insertion order, oldest first, the
oldest evicted once capacity is exceeded — and its length never exceeds 10. -/
theorem C6_session_window_bound (customer_phone : String)
    (ms : List SessionService.Msg) :
    SessionService.get_context
        (ms.foldl
          (fun st m => SessionService.add_message st customer_phone m.1 m.2)
          SessionService.emptyStore) customer_phone =
      ms.drop (ms.length - SessionService.MAX_MESSAGES) ∧
    (SessionService.get_context
        (ms.foldl
          (fun st m => SessionService.add_message st customer_phone m.1 m.2)
          SessionService.emptyStore) customer_phone).length ≤
      SessionService.MAX_MESSAGES := by
  have hkey :
      SessionService.get_context
        (ms.foldl
          (fun st m => SessionService.add_message st customer_phone m.1 m.2)
          SessionService.emptyStore) customer_phone =
        SessionService.lastN SessionService.MAX_MESSAGES ms := by
    unfold SessionService.get_context
    rw [foldl_add_message_at_key]
    simp only [SessionService.emptyStore]
    rw [foldl_window_append ms [] (by simp [SessionService.lastN])]
    rw [List.nil_append, lastN_idem]
  refine ⟨?_, ?_⟩
  · rw [hkey]; rfl
  · rw [hkey]; exact lastN_length_le _ _

/-- C8: `clear_context` is idempotent — clearing twice leaves the same
store state as clearing once — and a cleared conversation reads back as the
empty window; both calls are total functions of the store (no failure
escapes, matching the blanket exception handler in the source). -/
theorem C8_clear_context_idempotent (store : SessionService.Store)
    (customer_phone : String) :
    SessionService.clear_context
        (SessionService.clear_context store customer_phone) customer_phone =
      SessionService.clear_context store customer_phone ∧
    SessionService.get_context
        (SessionService.clear_context store customer_phone) customer_phone =
      [] := by
  constructor
  · funext k
    by_cases hk : k = SessionService.sessionKey customer_phone <;>
      simp [SessionService.clear_context, hk]
  · simp [SessionService.get_context, SessionService.clear_context,
      SessionService.lastN]

namespace RAGService

/-- A retrieved knowledge-base document: content and similarity score. -/
structure RetrievedDoc where
  content : String
  similarity : ℚ
deriving DecidableEq, Repr

/-- `RAGService.format_context`: an empty result gives the empty string;
otherwise the nonempty document contents are joined with a blank-line
separator. -/
def format_context (documents : List RetrievedDoc) : String :=
  if documents = [] then ""
  else
    String.intercalate "\n\n"
      ((documents.map RetrievedDoc.content).filter (fun content => content ≠ ""))

/-- `RAGService.search_knowledge_base` under its
`@async_retry(attempts=1, timeout=3.0)` wrapper: the attempt outcomes of
query embedding plus vector search are the oracle `runs`; the body wraps
any failure in `DatabaseError`, an `Exception`, so every failure is in the
catch-all configured set. -/
def search_knowledge_base (runs : Nat → Except Exn (List RetrievedDoc)) :
    Except Exn (List RetrievedDoc) :=
  async_retry 1 (fun _ => true) runs

/-- `RAGService.get_relevant_context`: search then format; any failure is
caught and degrades to the empty string. -/
def get_relevant_context (runs : Nat → Except Exn (List RetrievedDoc)) :
    String :=
  match search_knowledge_base runs with
  | Except.ok documents => format_context documents
  | Except.error _ => ""

end RAGService

/-- C7: `get_relevant_context` returns the retrieved documents' contents
joined with a blank-line separator, and the empty string in both degenerate
cases — an empty search result, and a retrieval failure surviving the retry
wrapper; a failure never propagates (the function is total, returning a
plain string). -/
theorem C7_get_relevant_context (runs : Nat → Except Exn (List RAGService.RetrievedDoc)) :
    ((∃ e, RAGService.search_knowledge_base runs = Except.error e) →
      RAGService.get_relevant_context runs = "") ∧
    (RAGService.search_knowledge_base runs = Except.ok [] →
      RAGService.get_relevant_context runs = "") ∧
    (∀ documents, RAGService.search_knowledge_base runs = Except.ok documents →
      (∀ d ∈ documents, d.content ≠ "") →
      RAGService.get_relevant_context runs =
        String.intercalate "\n\n"
          (documents.map RAGService.RetrievedDoc.content)) := by
  refine ⟨?_, ?_, ?_⟩
  · rintro ⟨e, he⟩
    simp [RAGService.get_relevant_context, he]
  · intro h
    simp [RAGService.get_relevant_context, h, RAGService.format_context]
  · intro documents h hne
    simp only [RAGService.get_relevant_context, h]
    unfold RAGService.format_context
    by_cases hd : documents = []
    · subst hd; rfl
    · rw [if_neg hd]
      congr 1
      rw [List.filter_eq_self]
      intro a ha
      obtain ⟨d, hdmem, rfl⟩ := List.mem_map.mp ha
      simpa using hne d hdmem

/-- C7 witness: a failing retrieval and an empty result both give the empty
string, and two nonempty documents are joined with one blank line. -/
theorem C7_get_relevant_context_witness :
    RAGService.get_relevant_context
        (fun _ => Except.error Exn.timeoutErr) = "" ∧
    RAGService.get_relevant_context (fun _ => Except.ok []) = "" ∧
    RAGService.get_relevant_context
        (fun _ => Except.ok
          [RAGService.RetrievedDoc.mk "Returns are accepted within 30 days." 0.9,
           RAGService.RetrievedDoc.mk "Shipping takes 5-7 business days." 0.8]) =
      "Returns are accepted within 30 days.\n\nShipping takes 5-7 business days." := by
  refine ⟨(C7_get_relevant_context (fun _ => Except.error Exn.timeoutErr)).1
            ⟨Exn.timeoutErr, rfl⟩,
          (C7_get_relevant_context (fun _ => Except.ok [])).2.1 rfl, ?_⟩
  have h := (C7_get_relevant_context (fun _ => Except.ok
      [RAGService.RetrievedDoc.mk "Returns are accepted within 30 days." 0.9,
       RAGService.RetrievedDoc.mk "Shipping takes 5-7 business days." 0.8])).2.2
    [RAGService.RetrievedDoc.mk "Returns are accepted within 30 days." 0.9,
     RAGService.RetrievedDoc.mk "Shipping takes 5-7 business days." 0.8]
    rfl (by decide)
  rw [h]
  rfl

/-- Observable side effects of one text-message turn: the escalation
notifications posted (their reasons, in order), the session appends
(role, content pairs, in order), and how often retrieval and the completion
collaborator were invoked. -/
structure Effects where
  escalations : List String
  appends : List (String × String)
  ragCalls : Nat
  genCalls : Nat
deriving DecidableEq, Repr

namespace AIService

/-- `AIService.generate_response` under its
`@async_retry(attempts=1, timeout=3.0)` wrapper: the completion
collaborator's attempt outcomes are the oracle `runs`; the body catches any
exception and re-raises it as `OpenAIError`, an `Exception`, so every
failure is in the catch-all configured set. -/
def generate_response (runs : Nat → Except Exn String) : Except Exn String :=
  async_retry 1 (fun _ => true) runs

/-- The notice appended to the reply when a low-confidence escalation fires
inside `process_text_message`. -/
def low_confidence_notice (response : String) : String :=
  response ++ "\n\n---\n" ++
  "I've also notified a team member to review this conversation " ++
  "in case you need additional assistance."

/-- `AIService.process_text_message`: the explicit-escalation check, then
the clothing-topic gate, then retrieval + generation with confidence
scoring, then the low-confidence escalation decision; only the
non-escalated generated-answer path appends the user and assistant turns to
the session. Collaborator results enter as arguments: `context` is the
formatted retrieval result (total by C7's argument: `get_relevant_context`
never fails) and `gen` the completion outcome; a completion failure is
returned in the `Except` and propagates to `handle_text_message`. The
returned `Effects` record the side effects performed before returning. -/
def process_text_message (message language context : String)
    (gen : Except Exn String) : Except Exn String × Effects :=
  if EscalationService.detect_escalation_request message then
    (Except.ok EscalationService.get_escalation_message,
     ⟨[EscalationService.explicit_request_reason], [], 0, 0⟩)
  else if is_clothing_related message = false then
    (Except.ok (get_redirect_message language), ⟨[], [], 0, 0⟩)
  else
    match gen with
    | Except.error e => (Except.error e, ⟨[], [], 1, 1⟩)
    | Except.ok response =>
        let confidence := response_confidence context response
        let decision := EscalationService.should_escalate (some confidence) false
        if decision.1 then
          (Except.ok (low_confidence_notice response),
           ⟨[decision.2], [], 1, 1⟩)
        else
          (Except.ok response,
           ⟨[], [("user", message), ("assistant", response)], 1, 1⟩)

end AIService

/-- An outbound send through the messaging collaborator; `fallbackMenu` is
the fixed interactive menu of `build_fallback_menu`, the other variants
carry the data that determines the built message. -/
inductive Outbound : Type
  | textMsg (body : String) : Outbound
  | fallbackMenu : Outbound
  | catalogList (trigger : String) : Outbound
  | emptyCategory (trigger : String) : Outbound
  | orderStatus (orderId : String) : Outbound
  | orderNotFound (orderId : String) : Outbound
deriving DecidableEq, Repr

/-- `handle_text_message` in `app/api/webhook.py`: route on an order id,
then on a browse trigger, else run the AI pipeline; any failure escaping
the pipeline is caught by the blanket `except` handler, which sends the
fallback menu. Oracles: `orderResult` is the `get_order_by_id` row (its
status; lookup failures already degrade to `none` inside the order
service), `products` the catalog query result, `language` the
`detect_language` heuristic's output, `context` and `gen` as in
`process_text_message`. Returns the turn's outbound sends and the
pipeline's side effects. -/
def handle_text_message (message language : String)
    (orderResult : Option String) (products : List String)
    (context : String) (gen : Except Exn String) :
    List Outbound × Effects :=
  match OrderService.extract_order_id message with
  | some order_id =>
      match orderResult with
      | some _ => ([Outbound.orderStatus order_id], ⟨[], [], 0, 0⟩)
      | none => ([Outbound.orderNotFound order_id], ⟨[], [], 0, 0⟩)
  | none =>
      match ProductService.detect_browse_trigger message with
      | some trigger =>
          if products ≠ [] then
            ([Outbound.catalogList trigger], ⟨[], [], 0, 0⟩)
          else ([Outbound.emptyCategory trigger], ⟨[], [], 0, 0⟩)
      | none =>
          match AIService.process_text_message message language context gen with
          | (Except.ok response, eff) => ([Outbound.textMsg response], eff)
          | (Except.error _, eff) => ([Outbound.fallbackMenu], eff)

/-- Branch equation: an explicit escalation request ends the turn with the
fixed acknowledgment and one notification, before any session append. -/
theorem process_explicit_escalation (message language context : String)
    (gen : Except Exn String)
    (h : EscalationService.detect_escalation_request message = true) :
    AIService.process_text_message message language context gen =
      (Except.ok EscalationService.get_escalation_message,
       ⟨[EscalationService.explicit_request_reason], [], 0, 0⟩) := by
  simp [AIService.process_text_message, h]

/-- Branch equation: a non-clothing message gets the redirect reply with no
side effects at all. -/
theorem process_redirect (message language context : String)
    (gen : Except Exn String)
    (hd : EscalationService.detect_escalation_request message = false)
    (hcl : AIService.is_clothing_related message = false) :
    AIService.process_text_message message language context gen =
      (Except.ok (AIService.get_redirect_message language), ⟨[], [], 0, 0⟩) := by
  simp [AIService.process_text_message, hd, hcl]

/-- Branch equation: a completion failure propagates out of the pipeline
after retrieval and generation were invoked, with no notification and no
session append. -/
theorem process_generation_failure (message language context : String)
    (e : Exn)
    (hd : EscalationService.detect_escalation_request message = false)
    (hcl : AIService.is_clothing_related message = true) :
    AIService.process_text_message message language context (Except.error e) =
      (Except.error e, ⟨[], [], 1, 1⟩) := by
  simp [AIService.process_text_message, hd, hcl]

/-- Branch equation: a generated answer whose confidence triggers the
escalation policy is returned with the added notice and one notification,
before any session append. -/
theorem process_low_confidence (message language context response : String)
    (hd : EscalationService.detect_escalation_request message = false)
    (hcl : AIService.is_clothing_related message = true)
    (hesc : (EscalationService.should_escalate
      (some (AIService.response_confidence context response)) false).1 = true) :
    AIService.process_text_message message language context
        (Except.ok response) =
      (Except.ok (AIService.low_confidence_notice response),
       ⟨[(EscalationService.should_escalate
          (some (AIService.response_confidence context response)) false).2],
        [], 1, 1⟩) := by
  simp [AIService.process_text_message, hd, hcl, hesc]

/-- Branch equation: a confident generated answer is returned as is, and
only then are the user and assistant turns appended to the session. -/
theorem process_answer (message language context response : String)
    (hd : EscalationService.detect_escalation_request message = false)
    (hcl : AIService.is_clothing_related message = true)
    (hesc : (EscalationService.should_escalate
      (some (AIService.response_confidence context response)) false).1 = false) :
    AIService.process_text_message message language context
        (Except.ok response) =
      (Except.ok response,
       ⟨[], [("user", message), ("assistant", response)], 1, 1⟩) := by
  simp [AIService.process_text_message, hd, hcl, hesc]

/-- C5: on the general-QA path (no order id, no browse trigger, no explicit
escalation phrase, clothing-related), if the completion collaborator fails
on every attempt then `handle_text_message` ends the turn in the fallback
state: the failure is caught (the handler returns normally), exactly one
outbound send happens and it is the fixed fallback menu, and no session
append or escalation notification occurs. -/
theorem C5_generation_failure_ends_in_fallback (message language : String)
    (orderResult : Option String) (products : List String) (context : String)
    (runs : Nat → Except Exn String)
    (hOrd : OrderService.extract_order_id message = none)
    (hBrowse : ProductService.detect_browse_trigger message = none)
    (hEsc : EscalationService.detect_escalation_request message = false)
    (hTopic : AIService.is_clothing_related message = true)
    (hFail : ∀ j, ∃ e, runs j = Except.error e) :
    (handle_text_message message language orderResult products context
        (AIService.generate_response runs)).1 = [Outbound.fallbackMenu] ∧
    (handle_text_message message language orderResult products context
        (AIService.generate_response runs)).2.appends = [] ∧
    (handle_text_message message language orderResult products context
        (AIService.generate_response runs)).2.escalations = [] := by
  classical
  choose es hes using hFail
  have hgen : AIService.generate_response runs = Except.error (es 1) :=
    retryGo_all_fail (fun _ => true) runs es
      (fun j => ⟨hes j, Or.inr rfl⟩) 1 0 none
  have hh : handle_text_message message language orderResult products context
      (AIService.generate_response runs) =
      ([Outbound.fallbackMenu], ⟨[], [], 1, 1⟩) := by
    rw [hgen]
    simp [handle_text_message, hOrd, hBrowse,
      process_generation_failure message language context (es 1) hEsc hTopic]
  rw [hh]
  exact ⟨rfl, rfl, rfl⟩

/-- C5 witness: the clothing question "What sizes do you have?" with every
completion attempt timing out ends in exactly one outbound send, the
fallback menu, with no session append and no escalation. -/
theorem C5_generation_failure_ends_in_fallback_witness :
    (handle_text_message "What sizes do you have?" "en" none [] ""
        (AIService.generate_response (fun _ => Except.error Exn.timeoutErr))).1 =
      [Outbound.fallbackMenu] ∧
    (handle_text_message "What sizes do you have?" "en" none [] ""
        (AIService.generate_response
          (fun _ => Except.error Exn.timeoutErr))).2.appends = [] := by
  obtain ⟨h1, h2, _h3⟩ :=
    C5_generation_failure_ends_in_fallback "What sizes do you have?" "en"
      none [] "" (fun _ => Except.error Exn.timeoutErr)
      (by decide) (by decide) (by decide) (by decide)
      (fun _ => ⟨Exn.timeoutErr, rfl⟩)
  exact ⟨h1, h2⟩

/-- C9: whenever escalation fires in `process_text_message` — an explicit
escalation phrase, or a generated answer whose confidence triggers
`should_escalate` — the turn performs no session append, so the
conversation window is left unchanged; conversely a turn that does append
posted no escalation, detected no escalation phrase, and returned the
generated answer unchanged. -/
theorem C9_escalation_skips_session_append (message language context : String)
    (gen : Except Exn String) :
    (EscalationService.detect_escalation_request message = true →
      (AIService.process_text_message message language context gen).2.appends =
        []) ∧
    (∀ response, gen = Except.ok response →
      (EscalationService.should_escalate
        (some (AIService.response_confidence context response)) false).1 = true →
      (AIService.process_text_message message language context gen).2.appends =
        []) ∧
    ((AIService.process_text_message message language context gen).2.appends ≠
        [] →
      EscalationService.detect_escalation_request message = false ∧
      (AIService.process_text_message message language context
        gen).2.escalations = [] ∧
      ∃ response, gen = Except.ok response ∧
        (AIService.process_text_message message language context gen).1 =
          Except.ok response) := by
  refine ⟨?_, ?_, ?_⟩
  · intro h
    rw [process_explicit_escalation message language context gen h]
  · intro response hgen hesc
    subst hgen
    cases hd : EscalationService.detect_escalation_request message with
    | true => rw [process_explicit_escalation message language context _ hd]
    | false =>
      cases hcl : AIService.is_clothing_related message with
      | false => rw [process_redirect message language context _ hd hcl]
      | true =>
        rw [process_low_confidence message language context response hd hcl hesc]
  · intro h
    cases hd : EscalationService.detect_escalation_request message with
    | true =>
      exact absurd
        (by rw [process_explicit_escalation message language context gen hd]) h
    | false =>
      cases hcl : AIService.is_clothing_related message with
      | false =>
        exact absurd
          (by rw [process_redirect message language context gen hd hcl]) h
      | true =>
        cases gen with
        | error e =>
          exact absurd
            (by rw [process_generation_failure message language context e hd hcl])
            h
        | ok response =>
          cases hesc : (EscalationService.should_escalate
              (some (AIService.response_confidence context response)) false).1 with
          | true =>
            exact absurd
              (by rw [process_low_confidence message language context response
                hd hcl hesc]) h
          | false =>
            rw [process_answer message language context response hd hcl hesc]
            exact ⟨rfl, rfl, response, rfl, rfl⟩

/-- C9 witness: an explicit "talk to human" turn appends nothing, and a
low-confidence turn (empty context, hedging reply, confidence 0.45) also
appends nothing. -/
theorem C9_escalation_skips_session_append_witness :
    (AIService.process_text_message "talk to human" "en" ""
        (Except.ok "Sure.")).2.appends = [] ∧
    (AIService.process_text_message "What sizes do you have?" "en" ""
        (Except.ok "I'm not sure about that.")).2.appends = [] := by
  constructor
  · exact (C9_escalation_skips_session_append "talk to human" "en" ""
      (Except.ok "Sure.")).1 (by decide)
  · refine (C9_escalation_skips_session_append "What sizes do you have?" "en" ""
      (Except.ok "I'm not sure about that.")).2.1
      "I'm not sure about that." rfl ?_
    have hhedge : AIService.has_uncertain_phrase "I'm not sure about that." =
        true := by decide
    have hconf : AIService.response_confidence "" "I'm not sure about that." =
        0.45 := by
      unfold AIService.response_confidence
      rw [hhedge]
      norm_num
    rw [hconf]
    have hlt : (0.45 : ℚ) < EscalationService.CONFIDENCE_THRESHOLD := by
      norm_num [EscalationService.CONFIDENCE_THRESHOLD]
    simp [EscalationService.should_escalate, hlt]

/-- C10: a message with no order id, no browse trigger and no escalation
phrase that contains a non-clothing keyword is answered with the fixed
language-specific redirect message, with no retrieval call, no completion
call, no escalation notification and no session append. -/
theorem C10_non_clothing_redirect (message language context : String)
    (gen : Except Exn String) (orderResult : Option String)
    (products : List String)
    (hOrd : OrderService.extract_order_id message = none)
    (hBrowse : ProductService.detect_browse_trigger message = none)
    (hEsc : EscalationService.detect_escalation_request message = false)
    (hkw : ∃ kw ∈ AIService.NON_CLOTHING_KEYWORDS,
      strOccursIn kw (strLower message) = true) :
    AIService.is_clothing_related message = false ∧
    AIService.process_text_message message language context gen =
      (Except.ok (AIService.get_redirect_message language), ⟨[], [], 0, 0⟩) ∧
    handle_text_message message language orderResult products context gen =
      ([Outbound.textMsg (AIService.get_redirect_message language)],
       ⟨[], [], 0, 0⟩) := by
  have hnc : AIService.NON_CLOTHING_KEYWORDS.any
      (fun k => strOccursIn k (strLower message)) = true := by
    rw [List.any_eq_true]
    obtain ⟨kw, hmem, hocc⟩ := hkw
    exact ⟨kw, hmem, hocc⟩
  have hcl : AIService.is_clothing_related message = false := by
    unfold AIService.is_clothing_related
    simp [hnc]
  refine ⟨hcl, process_redirect message language context gen hEsc hcl, ?_⟩
  simp [handle_text_message, hOrd, hBrowse,
    process_redirect message language context gen hEsc hcl]

/-- C10 witness: "how is the weather today" is off-topic ("weather"), gets
the fixed English redirect message, and the turn has no side effects. -/
theorem C10_non_clothing_redirect_witness :
    AIService.is_clothing_related "how is the weather today" = false ∧
    handle_text_message "how is the weather today" "en" none [] ""
        (Except.ok "irrelevant") =
      ([Outbound.textMsg (AIService.get_redirect_message "en")],
       ⟨[], [], 0, 0⟩) := by
  obtain ⟨h1, _h2, h3⟩ :=
    C10_non_clothing_redirect "how is the weather today" "en" ""
      (Except.ok "irrelevant") none []
      (by decide) (by decide) (by decide)
      ⟨"weather", by decide, by decide⟩
  exact ⟨h1, h3⟩
